import Mathlib

/-!
Shallow embedding of the smart-content-aggregator recommendation engine
(`RecommendationService`, `InteractionService`, `ArticleService`, `UserService`,
`RecommendationController`) and proofs about it.

Modelling conventions:
* Mongo `ObjectId` values are opaque identifiers; they are modelled as `Nat`.
  (`_id?.toString() || ''` in the source is only a `TypeScript` null-guard:
  persisted documents always carry an `_id`.)
* Every score the program computes is an exact multiple of `0.1` (weights 3,
  2, 1, bonus `0.5`, down-scaling `0.1`). Scores are therefore stored as
  integer tenths of a point (`score : Int`, so the weight 3 is stored as 30
  and the bonus `0.5` as 5) — an order- and value-faithful encoding that the
  kernel can evaluate, unlike `ℚ` arithmetic. `Recommendation.scoreQ` converts
  a stored score back to the rational number of points the source computes,
  and the theorems below are stated against `scoreQ`.
* `String.prototype.includes` is substring containment, modelled on the
  character list of the string; `toLowerCase` is `Char.toLower` mapped over the
  characters.
* Mongo queries `find().sort({createdAt: -1}).skip(o).limit(n)` are modelled as
  a stable descending sort by the `createdAt` field followed by `drop`/`take`;
  `countDocuments(filter)` is `List.countP`.
* `Array.prototype.sort` (a stable sort) with comparator
  `(a, b) => b.score - a.score` is modelled by the stable descending-by-key
  insertion sort `sortDesc`.
* `async`/`Promise` plumbing is dropped: in-memory store reads cannot fail, so
  only the explicit `throw new Error(...)` paths remain, modelled with
  `Except String`.
-/

/-- Kind of an `Interaction` document (`interactionType` enum in the schema). -/
inductive InteractionType where
  | view
  | like
deriving DecidableEq

/-- An `Interaction` document: user reference, article reference, kind, and the
`createdAt` timestamp added by the schema. -/
structure Interaction where
  userId : Nat
  articleId : Nat
  interactionType : InteractionType
  createdAt : Nat
deriving DecidableEq

/-- An `Article` document: title, content, optional summary, `createdAt`. The
`author` field is never read by the recommendation code and is omitted. -/
structure Article where
  id : Nat
  title : String
  content : String
  summary : Option String
  createdAt : Nat
deriving DecidableEq

/-- A `User` document: username and the list of interest terms. -/
structure User where
  id : Nat
  username : String
  interests : List String
deriving DecidableEq

/-- The three Mongo collections the services read from. -/
structure Store where
  users : List User
  articles : List Article
  interactions : List Interaction
deriving DecidableEq

/-- Result of `InteractionService.getInteractionStats`. -/
structure InteractionStats where
  views : Nat
  likes : Nat
  totalInteractions : Nat
deriving DecidableEq

/-- The `IRecommendation` output record: article, score (in integer tenths of
a point, see the header), reason text and the optional matched-interest list
(present only for interest-based results). -/
structure Recommendation where
  article : Article
  score : Int
  reason : String
  matchedInterests : Option (List String)
deriving DecidableEq

/-- The score of a recommendation as the source computes it: a rational number
of points (the stored integer counts tenths of a point). -/
def Recommendation.scoreQ (r : Recommendation) : ℚ :=
  (r.score : ℚ) / 10

/-- The `IRecommendationResponse` record returned by
`RecommendationService.getRecommendationsForUser`; the nested `user` and
`metadata` objects are flattened into fields. -/
structure RecommendationResponse where
  recommendations : List Recommendation
  total : Nat
  userId : Nat
  username : String
  interests : List String
  interestBasedCount : Nat
  popularityBasedCount : Nat
  algorithm : String
deriving DecidableEq

/-- JavaScript `toLowerCase`, character by character. -/
def lowerStr (s : String) : String :=
  ⟨s.data.map Char.toLower⟩

/-- JavaScript `hay.includes(needle)`: substring containment. -/
def strIncludes (hay needle : String) : Bool :=
  decide (needle.data <:+: hay.data)

/-- The check `article.summary?.toLowerCase().includes(x)`: a missing summary
(`null`) short-circuits to a falsy value. -/
def summaryIncludes (article : Article) (x : String) : Bool :=
  match article.summary with
  | some s => strIncludes (lowerStr s) x
  | none => false

/-- The joined haystack built by `getInterestBasedRecommendations`:
`[article.title, article.content, article.summary || ''].join(' ').toLowerCase()`. -/
def articleText (article : Article) : String :=
  lowerStr (article.title ++ " " ++ article.content ++ " " ++ article.summary.getD "")

/-- Insert an element into a list that is sorted descending by `key`, keeping
it before strictly smaller keys and after greater-or-equal keys (this is where
a stable sort puts a later-arriving element). -/
def insertDesc {α β : Type} [LinearOrder β] (key : α → β) (a : α) : List α → List α
  | [] => [a]
  | b :: l => if key b ≤ key a then a :: b :: l else b :: insertDesc key a l

/-- Stable sort, descending by `key`: the model of `Array.prototype.sort` with
comparator `(a, b) => keyOf(b) - keyOf(a)` and of Mongo `sort({field: -1})`. -/
def sortDesc {α β : Type} [LinearOrder β] (key : α → β) : List α → List α
  | [] => []
  | a :: l => insertDesc key a (sortDesc key l)

/-- `UserService.getUserById`: `User.findById(id)`. -/
def getUserById (store : Store) (id : Nat) : Option User :=
  store.users.find? (fun u => decide (u.id = id))

/-- `ArticleService.getArticleById`: `Article.findById(id)`. -/
def getArticleById (store : Store) (id : Nat) : Option Article :=
  store.articles.find? (fun a => decide (a.id = id))

/-- `ArticleService.getArticles(limit, offset)`: the `data` field, i.e.
`Article.find().sort({createdAt: -1}).skip(offset).limit(limit)` (the
pagination metadata of the response is not read by the engine). -/
def getArticles (store : Store) (limit offset : Nat) : List Article :=
  ((sortDesc (fun a => a.createdAt) store.articles).drop offset).take limit

/-- `InteractionService.getInteractionsByUser(userId, limit, offset)`: the
`interactions` field, i.e.
`Interaction.find({userId}).sort({createdAt: -1}).skip(offset).limit(limit)`. -/
def getInteractionsByUser (store : Store) (userId : Nat) (limit offset : Nat) :
    List Interaction :=
  ((sortDesc (fun i => i.createdAt)
      (store.interactions.filter (fun i => decide (i.userId = userId)))).drop offset).take limit

/-- `InteractionService.getAllInteractions(limit, offset)`: the `interactions`
field, i.e. `Interaction.find().sort({createdAt: -1}).skip(offset).limit(limit)`. -/
def getAllInteractions (store : Store) (limit offset : Nat) : List Interaction :=
  ((sortDesc (fun i => i.createdAt) store.interactions).drop offset).take limit

/-- `InteractionService.getInteractionStats(articleId)`: three
`countDocuments` queries over the whole collection (no pagination). -/
def getInteractionStats (store : Store) (articleId : Nat) : InteractionStats :=
  { views := store.interactions.countP
      (fun i => decide (i.articleId = articleId ∧ i.interactionType = InteractionType.view))
    likes := store.interactions.countP
      (fun i => decide (i.articleId = articleId ∧ i.interactionType = InteractionType.like))
    totalInteractions := store.interactions.countP (fun i => decide (i.articleId = articleId)) }

/-- One iteration of the `for (const interest of userInterests)` loop in
`getInterestBasedRecommendations`: the accumulator is the pair
`(matchedInterests, score)`. The gate is containment in the joined lowercased
text; the three field checks then each add their weight (3, 2 and 1 points,
i.e. 30, 20 and 10 tenths). -/
def interestStep (article : Article) (acc : List String × Int) (interest : String) :
    List String × Int :=
  let interestLower := lowerStr interest
  if strIncludes (articleText article) interestLower then
    (acc.1 ++ [interest],
      acc.2
        + (if strIncludes (lowerStr article.title) interestLower then 30 else 0)
        + (if summaryIncludes article interestLower then 20 else 0)
        + (if strIncludes (lowerStr article.content) interestLower then 10 else 0))
  else acc

/-- The body of the `for (const article of articles)` loop of
`getInterestBasedRecommendations`: runs the interest loop and, when at least
one interest matched, produces the recommendation with the flat
`matchedInterests.length * 0.5` bonus (5 tenths per matched term) added to the
score. -/
def interestRecommendationFor (user : User) (article : Article) : Option Recommendation :=
  let ms := user.interests.foldl (interestStep article) ([], 0)
  if 0 < ms.1.length then
    some { article := article
           score := ms.2 + (ms.1.length : Int) * 5
           reason := "Matches your interests: " ++ String.intercalate ", " ms.1
           matchedInterests := some ms.1 }
  else none

/-- `RecommendationService.getInterestBasedRecommendations(user, articles,
limit)`: empty for a user without interests; otherwise score every article,
keep the matching ones, sort by score descending and truncate. -/
def getInterestBasedRecommendations (user : User) (articles : List Article)
    (limit : Nat) : List Recommendation :=
  if user.interests.isEmpty then []
  else
    (sortDesc (fun r => r.score)
        (articles.filterMap (interestRecommendationFor user))).take limit

/-- The interest terms the loop records as matched for an article: exactly
those contained in the joined lowercased article text. -/
def matchedTerms (terms : List String) (article : Article) : List String :=
  terms.filter (fun t => strIncludes (articleText article) (lowerStr t))

/-- Per-term field weight accumulated by the loop, in tenths: 30 for a title
hit, 20 for a summary hit, 10 for a content hit. -/
def fieldScore (article : Article) (t : String) : Int :=
  (if strIncludes (lowerStr article.title) (lowerStr t) then 30 else 0)
    + (if summaryIncludes article (lowerStr t) then 20 else 0)
    + (if strIncludes (lowerStr article.content) (lowerStr t) then 10 else 0)

/-- Per-term field weight in points, as the spec words it: 3 for a title hit,
2 for a summary hit, 1 for a content hit. -/
def fieldScoreQ (article : Article) (t : String) : ℚ :=
  (if strIncludes (lowerStr article.title) (lowerStr t) then 3 else 0)
    + (if summaryIncludes article (lowerStr t) then 2 else 0)
    + (if strIncludes (lowerStr article.content) (lowerStr t) then 1 else 0)

/-- Reason text attached by `getPopularityBasedRecommendations`. -/
def popularityReason (stats : InteractionStats) : String :=
  if 0 < stats.likes ∧ 0 < stats.views then
    "Popular article (" ++ toString stats.likes ++ " likes, "
      ++ toString stats.views ++ " views)"
  else if 0 < stats.likes then
    "Well-liked article (" ++ toString stats.likes ++ " likes)"
  else if 0 < stats.views then
    "Trending article (" ++ toString stats.views ++ " views)"
  else "Popular article"

/-- `RecommendationService.getPopularityBasedRecommendations(articles, limit)`:
fetch per-article interaction stats, compute
`popularityScore = likes * 2 + views`, drop articles with score `0`, sort
descending, truncate, and emit recommendations scored `popularityScore * 0.1`. -/
def getPopularityBasedRecommendations (store : Store) (articles : List Article)
    (limit : Nat) : List Recommendation :=
  let articleStats := articles.map (fun article =>
    let stats := getInteractionStats store article.id
    (article, stats, stats.likes * 2 + stats.views))
  let sortedByPopularity :=
    (sortDesc (fun x => x.2.2) (articleStats.filter (fun x => 0 < x.2.2))).take limit
  sortedByPopularity.map (fun x =>
    { article := x.1
      -- `popularityScore * 0.1` points is exactly `popularityScore` tenths.
      score := (x.2.2 : Int)
      reason := popularityReason x.2.1
      matchedInterests := none })

/-- The `viewedArticleIds` set of `getRecommendationsForUser`: ids of the
`view` interactions among the user page fetched with
`getInteractionsByUser(userId, 1000, 0)`. (JavaScript `Set` is modelled by a
list used only through membership.) -/
def viewedArticleIdsOf (store : Store) (userId : Nat) : List Nat :=
  ((getInteractionsByUser store userId 1000 0).filter
      (fun i => decide (i.interactionType = InteractionType.view))).map
    (fun i => i.articleId)

/-- The `unviewedArticles` candidate pool: the article page fetched with
`getArticles(1000, 0)` minus the viewed ids. -/
def unviewedArticlesOf (store : Store) (userId : Nat) : List Article :=
  (getArticles store 1000 0).filter
    (fun a => decide (a.id ∉ viewedArticleIdsOf store userId))

/-- The `interestRecommendations` of `getRecommendationsForUser`:
`interestBasedLimit = Math.ceil(limit * 0.6)` is `⌈3·limit/5⌉`, written
`(3 * limit + 4) / 5` on naturals. -/
def interestRecommendationsOf (store : Store) (userId : Nat) (user : User)
    (limit : Nat) : List Recommendation :=
  getInterestBasedRecommendations user (unviewedArticlesOf store userId)
    ((3 * limit + 4) / 5)

/-- The `popularityRecommendations` of `getRecommendationsForUser`:
`popularityBasedLimit = limit - interestRecommendations.length`; the pass runs
only when that is positive, over the candidates not already viewed or chosen. -/
def popularityRecommendationsOf (store : Store) (userId : Nat) (user : User)
    (limit : Nat) : List Recommendation :=
  let interestRecommendations := interestRecommendationsOf store userId user limit
  let popularityBasedLimit : Int := (limit : Int) - interestRecommendations.length
  if 0 < popularityBasedLimit then
    let excludeIds := viewedArticleIdsOf store userId
      ++ interestRecommendations.map (fun r => r.article.id)
    getPopularityBasedRecommendations store
      ((unviewedArticlesOf store userId).filter (fun a => decide (a.id ∉ excludeIds)))
      popularityBasedLimit.toNat
  else []

/-- The successful branch of `getRecommendationsForUser`: both passes,
concatenation, stable sort by score descending, truncation to `limit`, and the
response record with user echo and metadata. -/
def buildRecommendations (store : Store) (userId : Nat) (user : User)
    (limit : Nat) : RecommendationResponse :=
  let interestRecommendations := interestRecommendationsOf store userId user limit
  let recommendations :=
    interestRecommendations ++ popularityRecommendationsOf store userId user limit
  let sortedRecommendations := (sortDesc (fun r => r.score) recommendations).take limit
  { recommendations := sortedRecommendations
    total := sortedRecommendations.length
    userId := user.id
    username := user.username
    interests := user.interests
    interestBasedCount := interestRecommendations.length
    popularityBasedCount := recommendations.length - interestRecommendations.length
    algorithm := "rule-based-v1" }

/-- `RecommendationService.getRecommendationsForUser(userId, limit)`: resolve
the user; an unresolved id throws `'User not found'`, which the surrounding
`catch` rewraps into the message modelled here. With in-memory stores no other
throw can occur. -/
def getRecommendationsForUser (store : Store) (userId : Nat) (limit : Nat) :
    Except String RecommendationResponse :=
  match getUserById store userId with
  | none => Except.error "Failed to generate recommendations: User not found"
  | some user => Except.ok (buildRecommendations store userId user limit)

/-- Recommendations of a service result (`[]` on a failed call). -/
def recsOf (e : Except String RecommendationResponse) : List Recommendation :=
  match e with
  | Except.ok r => r.recommendations
  | Except.error _ => []

/-- The `interestBasedCount` metadata of a service result (`0` on failure). -/
def interestCountOf (e : Except String RecommendationResponse) : Nat :=
  match e with
  | Except.ok r => r.interestBasedCount
  | Except.error _ => 0

/-- The `popularityBasedCount` metadata of a service result (`0` on failure). -/
def popCountOf (e : Except String RecommendationResponse) : Nat :=
  match e with
  | Except.ok r => r.popularityBasedCount
  | Except.error _ => 0

/-- One `Map.set` step of the trending counter loop: entries are
`(articleId, views, likes)`; an existing entry is bumped in place, a new key is
appended (JavaScript `Map` preserves insertion order). -/
def bumpCount (entries : List (Nat × Nat × Nat)) (articleId : Nat)
    (t : InteractionType) : List (Nat × Nat × Nat) :=
  match entries with
  | [] => [(articleId,
      (if t = InteractionType.view then 1 else 0),
      (if t = InteractionType.like then 1 else 0))]
  | e :: rest =>
    if e.1 = articleId then
      (e.1,
        e.2.1 + (if t = InteractionType.view then 1 else 0),
        e.2.2 + (if t = InteractionType.like then 1 else 0)) :: rest
    else e :: bumpCount rest articleId t

/-- The `articleInteractionCount` map of `getTrendingArticles`, folded over a
list of interactions. -/
def interactionCounts (interactions : List Interaction) : List (Nat × Nat × Nat) :=
  interactions.foldl (fun acc i => bumpCount acc i.articleId i.interactionType) []

/-- The body of the `for (const [articleId, stats] of ...)` loop of
`getTrendingArticles`: resolve the article (an unresolvable id is skipped) and
attach `trendingScore = likes * 3 + views` points, stored in tenths. -/
def trendingRecommendationFor (store : Store) (e : Nat × Nat × Nat) :
    Option Recommendation :=
  (getArticleById store e.1).map (fun article =>
    { article := article
      score := ((e.2.2 * 3 + e.2.1 : Nat) : Int) * 10
      reason := "Trending now (" ++ toString e.2.2 ++ " likes, "
        ++ toString e.2.1 ++ " views)"
      matchedInterests := none })

/-- `RecommendationService.getTrendingArticles(limit)`: count views and likes
per article over the page fetched with `getAllInteractions(1000, 0)`, resolve
each article, score `likes * 3 + views`, sort descending, truncate. -/
def getTrendingArticles (store : Store) (limit : Nat) : List Recommendation :=
  let recentInteractions := getAllInteractions store 1000 0
  let recommendations :=
    (interactionCounts recentInteractions).filterMap (trendingRecommendationFor store)
  (sortDesc (fun r => r.score) recommendations).take limit

/-- Modelled from the spec: the Trending Aggregator as §4.4 words it — "load
all Interactions (global, not per-user, not time-windowed)" — i.e. the same
pipeline as `getTrendingArticles` but folding every stored interaction instead
of the 1000-interaction page the code fetches. -/
def trendingAggregatorSpec (store : Store) (limit : Nat) : List Recommendation :=
  let recommendations :=
    (interactionCounts store.interactions).filterMap (trendingRecommendationFor store)
  (sortDesc (fun r => r.score) recommendations).take limit

/-- The `limit` handling of `RecommendationController.getRecommendationsForUser`:
`parseInt(req.query.limit) || 10` (a missing/unparsable parameter is `NaN` and
a parsed `0` is falsy, both falling back to `10`), then values outside
`[1, 50]` are rejected with a 400 validation error. The query parameter is
modelled as `none` for missing/unparsable and `some n` for a parsed integer. -/
def recommendationLimitCheck (q : Option Int) : Except String Int :=
  let limit : Int := match q with
    | none => 10
    | some n => if n = 0 then 10 else n
  if limit < 1 ∨ 50 < limit then Except.error "Limit must be between 1 and 50"
  else Except.ok limit

/-- Views of a given article within a list of interactions. -/
def viewCount (l : List Interaction) (articleId : Nat) : Nat :=
  l.countP (fun i => decide (i.articleId = articleId ∧ i.interactionType = InteractionType.view))

/-- Likes of a given article within a list of interactions. -/
def likeCount (l : List Interaction) (articleId : Nat) : Nat :=
  l.countP (fun i => decide (i.articleId = articleId ∧ i.interactionType = InteractionType.like))

/-- Lookup of a trending counter entry by article id. -/
def findEntry (entries : List (Nat × Nat × Nat)) (articleId : Nat) :
    Option (Nat × Nat × Nat) :=
  entries.find? (fun e => decide (e.1 = articleId))

/-- The article of the spec §8 scoring scenario. Its content contains neither
interest term. -/
def tsArticle : Article :=
  { id := 1
    title := "Advanced TypeScript Programming Techniques"
    content := "A look at patterns for large codebases"
    summary := some "A deep dive into tech concepts..."
    createdAt := 1 }

/-- The user of the spec §8 scoring scenario. -/
def tsUser : User :=
  { id := 1, username := "alice", interests := ["tech", "programming"] }

/-- An article whose title ends with the word that starts its content: the
interest term "beta gamma" spans the join boundary. -/
def spanArticle : Article :=
  { id := 2, title := "alpha beta", content := "gamma delta", summary := none,
    createdAt := 1 }

/-- A user whose single interest term spans the title/content join boundary of
`spanArticle`. -/
def spanUser : User :=
  { id := 2, username := "bob", interests := ["beta gamma"] }

/-- A minimal article used by several concrete scenarios. -/
def mkPlainArticle (i : Nat) (t : String) : Article :=
  { id := i, title := t, content := "body", summary := none, createdAt := i }

/-- Store for the shortfall scenario: one user interested in "zzz", four
matching articles, ten non-matching articles that each have one view by
another user (so the popularity pass has more than six engaged candidates). -/
def store7 : Store :=
  { users := [{ id := 1, username := "alice", interests := ["zzz"] }]
    articles :=
      [ mkPlainArticle 1 "zzz one", mkPlainArticle 2 "zzz two",
        mkPlainArticle 3 "zzz three", mkPlainArticle 4 "zzz four",
        mkPlainArticle 5 "plain five", mkPlainArticle 6 "plain six",
        mkPlainArticle 7 "plain seven", mkPlainArticle 8 "plain eight",
        mkPlainArticle 9 "plain nine", mkPlainArticle 10 "plain ten",
        mkPlainArticle 11 "plain eleven", mkPlainArticle 12 "plain twelve",
        mkPlainArticle 13 "plain thirteen", mkPlainArticle 14 "plain fourteen" ]
    interactions :=
      (List.range 10).map (fun i =>
        { userId := 99, articleId := i + 5, interactionType := InteractionType.view,
          createdAt := i + 1 }) }

/-- Filler articles for the exclusion-overflow store. -/
def bugFillerArticle (i : Nat) : Article :=
  { id := i + 1, title := "filler article", content := "body", summary := none,
    createdAt := 500 - i }

/-- A store where user 0 has 1001 interactions: a `view` of article 0 (the
oldest interaction) plus a `view` and a `like` of each of 500 filler articles.
The per-(user, article, kind) uniqueness the Interaction schema enforces
holds. The engine's `getInteractionsByUser(userId, 1000, 0)` page holds only
the newest 1000 interactions, so the view of article 0 is not seen and
article 0 — which matches the user's interest — escapes the exclusion set. -/
def bugStore : Store :=
  { users := [{ id := 0, username := "victim", interests := ["quantum"] }]
    articles :=
      { id := 0, title := "quantum leap", content := "body", summary := none,
        createdAt := 10000 } :: (List.range 500).map bugFillerArticle
    interactions :=
      ((List.range 500).flatMap (fun i =>
        [{ userId := 0, articleId := i + 1, interactionType := InteractionType.view,
           createdAt := 1000 - 2 * i },
         { userId := 0, articleId := i + 1, interactionType := InteractionType.like,
           createdAt := 999 - 2 * i }]))
      ++ [{ userId := 0, articleId := 0, interactionType := InteractionType.view,
            createdAt := 0 }] }

/-- A store with 1001 interactions: 1000 distinct users viewed article 1, and
the oldest interaction on record is a view of article 0. The
`getAllInteractions(1000, 0)` page misses that oldest view. -/
def trendStore : Store :=
  { users := []
    articles :=
      [{ id := 0, title := "old", content := "body", summary := none, createdAt := 1 },
       { id := 1, title := "hot", content := "body", summary := none, createdAt := 2 }]
    interactions :=
      ((List.range 1000).map (fun i =>
        { userId := i + 1, articleId := 1, interactionType := InteractionType.view,
          createdAt := 1000 - i }))
      ++ [{ userId := 0, articleId := 0, interactionType := InteractionType.view,
            createdAt := 0 }] }

/-- Store for the spec §8 trending scenario: article 7 with 3 likes and 5
views. -/
def trendScenarioStore : Store :=
  { users := []
    articles := [{ id := 7, title := "seven", content := "body", summary := none,
                   createdAt := 1 }]
    interactions :=
      [ { userId := 1, articleId := 7, interactionType := InteractionType.like, createdAt := 8 },
        { userId := 2, articleId := 7, interactionType := InteractionType.like, createdAt := 7 },
        { userId := 3, articleId := 7, interactionType := InteractionType.like, createdAt := 6 },
        { userId := 1, articleId := 7, interactionType := InteractionType.view, createdAt := 5 },
        { userId := 2, articleId := 7, interactionType := InteractionType.view, createdAt := 4 },
        { userId := 3, articleId := 7, interactionType := InteractionType.view, createdAt := 3 },
        { userId := 4, articleId := 7, interactionType := InteractionType.view, createdAt := 2 },
        { userId := 5, articleId := 7, interactionType := InteractionType.view, createdAt := 1 } ] }

/-- The popularity recommendation produced for article 5 of `store7`. -/
def popWitnessRec : Recommendation :=
  { article := mkPlainArticle 5 "plain five", score := 1,
    reason := "Trending article (1 views)", matchedInterests := none }

/-- The trending recommendation produced for article 7 of
`trendScenarioStore`. -/
def trendWitnessRec : Recommendation :=
  { article := Article.mk 7 "seven" "body" none 1
    score := 140
    reason := "Trending now (3 likes, 5 views)"
    matchedInterests := none }

/-- Inserting into a sorted-descending list is a permutation of consing. -/
theorem insertDesc_perm {α β : Type} [LinearOrder β] (key : α → β) (a : α)
    (l : List α) : (insertDesc key a l).Perm (a :: l) := by
  induction l with
  | nil => simp [insertDesc]
  | cons b l ih =>
    simp only [insertDesc]
    split
    · exact List.Perm.refl _
    · exact (ih.cons b).trans (List.Perm.swap a b l)

/-- The stable descending sort permutes its input. -/
theorem sortDesc_perm {α β : Type} [LinearOrder β] (key : α → β) (l : List α) :
    (sortDesc key l).Perm l := by
  induction l with
  | nil => exact List.Perm.refl _
  | cons a l ih => exact (insertDesc_perm key a (sortDesc key l)).trans (ih.cons a)

/-- Membership is preserved by the descending sort. -/
theorem mem_sortDesc {α β : Type} [LinearOrder β] {key : α → β} {l : List α}
    {x : α} : x ∈ sortDesc key l ↔ x ∈ l :=
  (sortDesc_perm key l).mem_iff

/-- Inserting into a descending-sorted list keeps it descending. -/
theorem insertDesc_pairwise {α β : Type} [LinearOrder β] {key : α → β} {a : α}
    {l : List α} (h : l.Pairwise (fun x y => key y ≤ key x)) :
    (insertDesc key a l).Pairwise (fun x y => key y ≤ key x) := by
  induction l with
  | nil => simp [insertDesc]
  | cons b l ih =>
    rw [List.pairwise_cons] at h
    simp only [insertDesc]
    split
    · rename_i hba
      refine List.pairwise_cons.mpr ⟨?_, List.pairwise_cons.mpr h⟩
      intro c hc
      rcases List.mem_cons.mp hc with rfl | hc
      · exact hba
      · exact (h.1 c hc).trans hba
    · rename_i hba
      refine List.pairwise_cons.mpr ⟨?_, ih h.2⟩
      intro c hc
      rcases List.mem_cons.mp ((insertDesc_perm key a l).mem_iff.mp hc) with rfl | hc
      · exact le_of_lt (lt_of_not_le hba)
      · exact h.1 c hc

/-- The descending sort produces a list whose keys are descending. -/
theorem sortDesc_pairwise {α β : Type} [LinearOrder β] (key : α → β)
    (l : List α) : (sortDesc key l).Pairwise (fun x y => key y ≤ key x) := by
  induction l with
  | nil => simp [sortDesc]
  | cons a l ih => exact insertDesc_pairwise ih

/-- An element of a truncated descending sort comes from the unsorted list. -/
theorem mem_take_sortDesc {α β : Type} [LinearOrder β] {key : α → β}
    {l : List α} {n : Nat} {x : α} (h : x ∈ (sortDesc key l).take n) : x ∈ l :=
  mem_sortDesc.mp (List.take_subset n _ h)

/-- Mapped images stay duplicate-free through sorting and truncation. -/
theorem nodup_map_take_sortDesc {α β γ : Type} [LinearOrder β] (key : α → β)
    (f : α → γ) (l : List α) (n : Nat) (h : (l.map f).Nodup) :
    (((sortDesc key l).take n).map f).Nodup :=
  ((List.take_sublist n _).map f).nodup (((sortDesc_perm key l).map f).nodup_iff.mpr h)

/-- Characterisation of the interest loop: starting from any accumulator, the
loop appends exactly the terms contained in the joined lowercased article text
and adds each matched term's per-field weight. -/
theorem interest_foldl (article : Article) (terms : List String) :
    ∀ acc : List String × Int,
      terms.foldl (interestStep article) acc =
        (acc.1 ++ matchedTerms terms article,
          acc.2 + ((matchedTerms terms article).map (fieldScore article)).sum) := by
  induction terms with
  | nil => intro acc; simp [matchedTerms]
  | cons t ts ih =>
    intro acc
    rw [List.foldl_cons, ih]
    simp only [matchedTerms, List.filter_cons]
    by_cases hg : strIncludes (articleText article) (lowerStr t) = true
    · simp only [interestStep, hg, if_true, List.map_cons, List.sum_cons]
      refine Prod.ext ?_ ?_
      · simp [List.append_assoc]
      · simp only [fieldScore]
        ring
    · rw [Bool.not_eq_true] at hg
      simp only [interestStep, hg, Bool.false_eq_true, if_false]

/-- Inversion of the per-article interest step: a produced recommendation
carries the article itself, the matched-term list, and the field-weight sum
plus the flat half-point bonus per matched term. -/
theorem interestRecommendationFor_eq {user : User} {article : Article}
    {r : Recommendation} (h : interestRecommendationFor user article = some r) :
    r.article = article ∧
    r.matchedInterests = some (matchedTerms user.interests article) ∧
    r.score = ((matchedTerms user.interests article).map (fieldScore article)).sum
      + ((matchedTerms user.interests article).length : Int) * 5 ∧
    matchedTerms user.interests article ≠ [] := by
  unfold interestRecommendationFor at h
  rw [interest_foldl article user.interests ([], 0)] at h
  simp only [List.nil_append, zero_add] at h
  split at h
  · rename_i hpos
    rcases Option.some.injEq .. ▸ h with rfl
    refine ⟨rfl, rfl, by ring, ?_⟩
    exact List.length_pos.mp hpos
  · exact absurd h (by simp)

/-- An article matching none of the interests yields no recommendation. -/
theorem interestRecommendationFor_of_no_match {user : User} {article : Article}
    (h : matchedTerms user.interests article = []) :
    interestRecommendationFor user article = none := by
  unfold interestRecommendationFor
  rw [interest_foldl article user.interests ([], 0)]
  simp [h]

/-- Every returned interest recommendation comes from some candidate article. -/
theorem mem_interest_recs {user : User} {articles : List Article} {limit : Nat}
    {r : Recommendation} (h : r ∈ getInterestBasedRecommendations user articles limit) :
    ∃ a ∈ articles, interestRecommendationFor user a = some r := by
  unfold getInterestBasedRecommendations at h
  split at h
  · simp at h
  · exact List.mem_filterMap.mp (mem_take_sortDesc h)

/-- The ids of the interest pass output form a sublist of the candidate ids. -/
theorem interest_filterMap_ids_sublist (user : User) (articles : List Article) :
    ((articles.filterMap (interestRecommendationFor user)).map
      (fun r => r.article.id)).Sublist (articles.map (fun a => a.id)) := by
  induction articles with
  | nil => simp
  | cons a arts ih =>
    rw [List.filterMap_cons]
    cases hfa : interestRecommendationFor user a with
    | none => simp only [List.map_cons]; exact ih.cons a.id
    | some r =>
      simp only [List.map_cons]
      rw [(interestRecommendationFor_eq hfa).1]
      exact ih.cons₂ a.id

/-- Distinct candidate ids give distinct interest-recommendation ids. -/
theorem interest_recs_ids_nodup {user : User} {articles : List Article}
    {limit : Nat} (h : (articles.map (fun a => a.id)).Nodup) :
    ((getInterestBasedRecommendations user articles limit).map
      (fun r => r.article.id)).Nodup := by
  unfold getInterestBasedRecommendations
  split
  · simp
  · exact nodup_map_take_sortDesc _ _ _ _
      ((interest_filterMap_ids_sublist user articles).nodup h)

/-- The interest pass never returns more than its limit. -/
theorem interest_recs_length_le (user : User) (articles : List Article)
    (limit : Nat) : (getInterestBasedRecommendations user articles limit).length ≤ limit := by
  unfold getInterestBasedRecommendations
  split
  · simp
  · rw [List.length_take]
    exact inf_le_left

/-- Inversion of the popularity pass: every emitted recommendation comes from a
candidate article with a positive popularity score `likes * 2 + views`, carries
exactly that score in tenths (i.e. `popularityScore * 0.1` points), and has no
matched-interest list. -/
theorem mem_pop_recs {store : Store} {articles : List Article} {limit : Nat}
    {r : Recommendation} (h : r ∈ getPopularityBasedRecommendations store articles limit) :
    r.article ∈ articles ∧
    0 < (getInteractionStats store r.article.id).likes * 2
      + (getInteractionStats store r.article.id).views ∧
    r.score = ((getInteractionStats store r.article.id).likes * 2
      + (getInteractionStats store r.article.id).views : Nat) ∧
    r.matchedInterests = none := by
  unfold getPopularityBasedRecommendations at h
  rcases List.mem_map.mp h with ⟨x, hx, rfl⟩
  have hx2 := mem_take_sortDesc hx
  have hx3 := List.mem_of_mem_filter hx2
  have hpos := List.of_mem_filter hx2
  rcases List.mem_map.mp hx3 with ⟨a, ha, rfl⟩
  simp only [decide_eq_true_eq] at hpos
  exact ⟨ha, hpos, rfl, rfl⟩

/-- The popularity pass returns at most its limit. -/
theorem pop_recs_length_le (store : Store) (articles : List Article)
    (limit : Nat) :
    (getPopularityBasedRecommendations store articles limit).length ≤ limit := by
  unfold getPopularityBasedRecommendations
  rw [List.length_map, List.length_take]
  exact inf_le_left

/-- Distinct candidate ids give distinct popularity-recommendation ids. -/
theorem pop_recs_ids_nodup {store : Store} {articles : List Article}
    {limit : Nat} (h : (articles.map (fun a => a.id)).Nodup) :
    ((getPopularityBasedRecommendations store articles limit).map
      (fun r => r.article.id)).Nodup := by
  unfold getPopularityBasedRecommendations
  rw [List.map_map]
  have hsub : ((List.filter (fun x => decide (0 < x.2.2))
        (articles.map (fun article =>
          (article, getInteractionStats store article.id,
            (getInteractionStats store article.id).likes * 2
              + (getInteractionStats store article.id).views)))).map
      (fun x => x.1.id)).Sublist (articles.map (fun a => a.id)) := by
    refine List.Sublist.trans ((List.filter_sublist _).map _) ?_
    rw [List.map_map]
    exact List.Sublist.refl _
  exact nodup_map_take_sortDesc _ _ _ _ (hsub.nodup h)

/-- Distinct stored article ids give a duplicate-free candidate pool. -/
theorem unviewed_ids_nodup (store : Store) (userId : Nat)
    (h : (store.articles.map (fun a => a.id)).Nodup) :
    ((unviewedArticlesOf store userId).map (fun a => a.id)).Nodup := by
  have h1 : ((sortDesc (fun a => a.createdAt) store.articles).map
      (fun a => a.id)).Nodup := ((sortDesc_perm _ _).map _).nodup_iff.mpr h
  refine List.Sublist.nodup ?_ h1
  refine List.Sublist.map _ ?_
  exact (List.filter_sublist _).trans
    ((List.take_sublist _ _).trans (List.drop_sublist _ _))

/-- A popularity result of the engine is an unviewed candidate whose id was
not already chosen by the interest pass. -/
theorem mem_pop_engine {store : Store} {userId : Nat} {user : User}
    {limit : Nat} {r : Recommendation}
    (h : r ∈ popularityRecommendationsOf store userId user limit) :
    r.article ∈ unviewedArticlesOf store userId ∧
    r.article.id ∉ (interestRecommendationsOf store userId user limit).map
      (fun s => s.article.id) := by
  simp only [popularityRecommendationsOf] at h
  split at h
  · have hm := (mem_pop_recs h).1
    have hfilter := List.of_mem_filter hm
    refine ⟨List.mem_of_mem_filter hm, ?_⟩
    simp only [decide_eq_true_eq] at hfilter
    intro hmem
    exact hfilter (List.mem_append.mpr (Or.inr hmem))
  · simp at h

/-- The `interestBasedCount` metadata field is the interest pass length. -/
theorem build_interestBasedCount (store : Store) (userId : Nat) (user : User)
    (limit : Nat) :
    (buildRecommendations store userId user limit).interestBasedCount
      = (interestRecommendationsOf store userId user limit).length := rfl

/-- The `popularityBasedCount` metadata field as the source computes it. -/
theorem build_popularityBasedCount (store : Store) (userId : Nat) (user : User)
    (limit : Nat) :
    (buildRecommendations store userId user limit).popularityBasedCount
      = (interestRecommendationsOf store userId user limit
          ++ popularityRecommendationsOf store userId user limit).length
        - (interestRecommendationsOf store userId user limit).length := rfl

/-- The returned list is the truncated stable sort of both passes. -/
theorem build_recommendations_field (store : Store) (userId : Nat) (user : User)
    (limit : Nat) :
    (buildRecommendations store userId user limit).recommendations
      = (sortDesc (fun r => r.score)
          (interestRecommendationsOf store userId user limit
            ++ popularityRecommendationsOf store userId user limit)).take limit := rfl

/-- Distinct stored article ids make the engine output duplicate-free. -/
theorem build_recs_ids_nodup (store : Store) (userId : Nat) (user : User)
    (limit : Nat) (h : (store.articles.map (fun a => a.id)).Nodup) :
    ((buildRecommendations store userId user limit).recommendations.map
      (fun r => r.article.id)).Nodup := by
  have hu := unviewed_ids_nodup store userId h
  have hi : ((interestRecommendationsOf store userId user limit).map
      (fun r => r.article.id)).Nodup := interest_recs_ids_nodup hu
  have hp : ((popularityRecommendationsOf store userId user limit).map
      (fun r => r.article.id)).Nodup := by
    simp only [popularityRecommendationsOf]
    split
    · exact pop_recs_ids_nodup
        (List.Sublist.nodup (List.Sublist.map _ (List.filter_sublist _)) hu)
    · simp
  have hdisj : (interestRecommendationsOf store userId user limit).map
      (fun r => r.article.id) |>.Disjoint
        ((popularityRecommendationsOf store userId user limit).map
          (fun r => r.article.id)) := by
    intro x hxI hxP
    rcases List.mem_map.mp hxP with ⟨r, hr, rfl⟩
    exact (mem_pop_engine hr).2 hxI
  rw [build_recommendations_field]
  refine nodup_map_take_sortDesc _ _ _ _ ?_
  rw [List.map_append]
  exact hi.append hp hdisj

/-- Keys of the counter map after one bump: unchanged for a known article,
extended at the end for a new one. -/
theorem bumpCount_keys (entries : List (Nat × Nat × Nat)) (articleId : Nat)
    (t : InteractionType) :
    (bumpCount entries articleId t).map (fun e => e.1) =
      if articleId ∈ entries.map (fun e => e.1) then entries.map (fun e => e.1)
      else entries.map (fun e => e.1) ++ [articleId] := by
  induction entries with
  | nil => simp [bumpCount]
  | cons e rest ih =>
    simp only [bumpCount, List.map_cons]
    by_cases he : e.1 = articleId
    · simp [he]
    · rw [if_neg he, List.map_cons, ih]
      have he2 : articleId ≠ e.1 := fun hh => he hh.symm
      by_cases hm : articleId ∈ rest.map (fun e => e.1)
      · simp [hm, he2]
      · simp [hm, he2]

/-- The counter fold keeps its keys duplicate-free. -/
theorem interactionCounts_keys_aux (l : List Interaction) :
    ∀ acc : List (Nat × Nat × Nat), (acc.map (fun e => e.1)).Nodup →
      ((l.foldl (fun acc i => bumpCount acc i.articleId i.interactionType)
          acc).map (fun e => e.1)).Nodup := by
  induction l with
  | nil => intro acc h; simpa using h
  | cons i rest ih =>
    intro acc h
    rw [List.foldl_cons]
    refine ih _ ?_
    rw [bumpCount_keys]
    split
    · exact h
    · rename_i hnotmem
      refine List.Nodup.append h (List.nodup_singleton _) ?_
      intro x hx hx2
      rcases List.mem_singleton.mp hx2 with rfl
      exact hnotmem hx

/-- The keys of the trending counter map are pairwise distinct. -/
theorem interactionCounts_keys_nodup (l : List Interaction) :
    ((interactionCounts l).map (fun e => e.1)).Nodup :=
  interactionCounts_keys_aux l [] (by simp)

/-- Lookup in the counter map, unfolded one entry. -/
theorem findEntry_cons (e : Nat × Nat × Nat) (rest : List (Nat × Nat × Nat))
    (articleId : Nat) :
    findEntry (e :: rest) articleId =
      if e.1 = articleId then some e else findEntry rest articleId := by
  unfold findEntry
  by_cases h : e.1 = articleId
  · simp [List.find?_cons, h]
  · simp [List.find?_cons, h]

/-- Lookup after a bump: the bumped key gains the increment of the
interaction kind; other keys are untouched. -/
theorem findEntry_bumpCount (entries : List (Nat × Nat × Nat)) (j : Nat)
    (t : InteractionType) (articleId : Nat) :
    findEntry (bumpCount entries j t) articleId =
      if articleId = j then
        match findEntry entries j with
        | some e => some (e.1,
            e.2.1 + (if t = InteractionType.view then 1 else 0),
            e.2.2 + (if t = InteractionType.like then 1 else 0))
        | none => some (j,
            (if t = InteractionType.view then 1 else 0),
            (if t = InteractionType.like then 1 else 0))
      else findEntry entries articleId := by
  induction entries with
  | nil =>
    by_cases h : articleId = j
    · subst h; simp [bumpCount, findEntry_cons, findEntry]
    · have h2 : ¬ (j = articleId) := fun hh => h hh.symm
      simp [bumpCount, findEntry_cons, findEntry, h, h2]
  | cons e rest ih =>
    simp only [bumpCount]
    by_cases hej : e.1 = j
    · rw [if_pos hej]
      by_cases h : articleId = j
      · subst h
        rw [findEntry_cons, findEntry_cons]
        simp [hej]
      · have hne : ¬ ((e.1, e.2.1 + (if t = InteractionType.view then 1 else 0),
            e.2.2 + (if t = InteractionType.like then 1 else 0)).1 = articleId) := by
          simpa using fun hh => h ((hej.symm.trans hh).symm)
        rw [findEntry_cons, if_neg hne, if_neg h, findEntry_cons,
          if_neg (fun hh => h ((hej.symm.trans hh).symm))]
    · rw [if_neg hej]
      by_cases hea : e.1 = articleId
      · have hne : ¬ (articleId = j) := fun hh => hej (hea.trans hh)
        rw [findEntry_cons, if_pos hea, if_neg hne, findEntry_cons, if_pos hea]
      · rw [findEntry_cons, if_neg hea, ih, findEntry_cons, if_neg hej,
          findEntry_cons, if_neg hea]

/-- Lookup after folding a list of interactions into the counter map: the
counts grow by exactly the number of views and likes of the article in the
folded list; a key absent from both the accumulator and the list stays
absent. -/
theorem findEntry_foldl (l : List Interaction) :
    ∀ (acc : List (Nat × Nat × Nat)) (articleId : Nat),
      findEntry (l.foldl (fun acc i => bumpCount acc i.articleId i.interactionType)
          acc) articleId =
        match findEntry acc articleId with
        | some e => some (e.1, e.2.1 + viewCount l articleId,
            e.2.2 + likeCount l articleId)
        | none =>
          if l.any (fun i => decide (i.articleId = articleId)) then
            some (articleId, viewCount l articleId, likeCount l articleId)
          else none := by
  induction l with
  | nil =>
    intro acc articleId
    simp only [List.foldl_nil, viewCount, likeCount, List.countP_nil, List.any_nil]
    cases h : findEntry acc articleId <;> simp
  | cons i rest ih =>
    intro acc articleId
    rw [List.foldl_cons, ih, findEntry_bumpCount]
    by_cases hia : articleId = i.articleId
    · subst hia
      cases h : findEntry acc i.articleId with
      | some e =>
        simp only [if_pos rfl, h]
        cases hty : i.interactionType <;>
          simp [viewCount, likeCount, List.countP_cons, hty] <;> omega
      | none =>
        simp only [if_pos rfl, h]
        cases hty : i.interactionType <;>
          simp [viewCount, likeCount, List.countP_cons, List.any_cons, hty] <;> omega
    · rw [if_neg hia]
      have hia2 : ¬ (i.articleId = articleId) := fun hh => hia hh.symm
      cases h : findEntry acc articleId <;>
        simp [h, viewCount, likeCount, List.countP_cons, List.any_cons, hia2]

/-- Lookup in the full trending counter map gives exactly the view and like
counts of the article. -/
theorem findEntry_interactionCounts (l : List Interaction) (articleId : Nat) :
    findEntry (interactionCounts l) articleId =
      if l.any (fun i => decide (i.articleId = articleId)) then
        some (articleId, viewCount l articleId, likeCount l articleId)
      else none := by
  unfold interactionCounts
  rw [findEntry_foldl]
  simp [findEntry]

/-- With duplicate-free keys, membership determines the lookup result. -/
theorem findEntry_of_mem {entries : List (Nat × Nat × Nat)}
    {e : Nat × Nat × Nat} (hm : e ∈ entries)
    (hn : (entries.map (fun x => x.1)).Nodup) : findEntry entries e.1 = some e := by
  induction entries with
  | nil => simp at hm
  | cons x rest ih =>
    rw [findEntry_cons]
    rcases List.mem_cons.mp hm with rfl | hm2
    · rw [if_pos rfl]
    · rw [List.map_cons, List.nodup_cons] at hn
      have hx : ¬ (x.1 = e.1) := by
        intro hh
        exact hn.1 (hh ▸ List.mem_map_of_mem _ hm2)
      rw [if_neg hx]
      exact ih hm2 hn.2

/-- Inversion of the trending loop body: the emitted recommendation carries the
resolved article of the counter entry and the score `likes * 3 + views`. -/
theorem trendingRecommendationFor_eq {store : Store} {e : Nat × Nat × Nat}
    {r : Recommendation} (h : trendingRecommendationFor store e = some r) :
    r.article.id = e.1 ∧ getArticleById store e.1 = some r.article ∧
    r.score = ((e.2.2 * 3 + e.2.1 : Nat) : Int) * 10 := by
  unfold trendingRecommendationFor at h
  rcases Option.map_eq_some'.mp h with ⟨a, ha, rfl⟩
  have haid : a.id = e.1 := by simpa using List.find?_some ha
  exact ⟨haid, haid ▸ ha, rfl⟩

/-- The ids of the trending output form a sublist of the counter keys. -/
theorem trending_filterMap_ids_sublist (store : Store)
    (counts : List (Nat × Nat × Nat)) :
    ((counts.filterMap (trendingRecommendationFor store)).map
      (fun r => r.article.id)).Sublist (counts.map (fun e => e.1)) := by
  induction counts with
  | nil => simp
  | cons e rest ih =>
    rw [List.filterMap_cons]
    cases hfe : trendingRecommendationFor store e with
    | none => simp only [List.map_cons]; exact ih.cons e.1
    | some r =>
      simp only [List.map_cons]
      rw [(trendingRecommendationFor_eq hfe).1]
      exact ih.cons₂ e.1

/-- Trending results carry pairwise distinct article ids. -/
theorem trending_ids_nodup (store : Store) (limit : Nat) :
    ((getTrendingArticles store limit).map (fun r => r.article.id)).Nodup := by
  unfold getTrendingArticles
  exact nodup_map_take_sortDesc _ _ _ _
    ((trending_filterMap_ids_sublist store _).nodup (interactionCounts_keys_nodup _))

/-- Every trending recommendation scores `likes * 3 + views` computed over the
fetched interaction page, and resolves its own article id. -/
theorem mem_trending {store : Store} {limit : Nat} {r : Recommendation}
    (h : r ∈ getTrendingArticles store limit) :
    r.score = ((likeCount (getAllInteractions store 1000 0) r.article.id * 3
      + viewCount (getAllInteractions store 1000 0) r.article.id : Nat) : Int) * 10 ∧
    getArticleById store r.article.id = some r.article := by
  unfold getTrendingArticles at h
  have h2 := mem_take_sortDesc h
  rcases List.mem_filterMap.mp h2 with ⟨e, he, hfe⟩
  obtain ⟨hid, hres, hscore⟩ := trendingRecommendationFor_eq hfe
  have hfind := findEntry_of_mem he (interactionCounts_keys_nodup _)
  rw [findEntry_interactionCounts] at hfind
  split at hfind
  · have he2 : (e.1, viewCount (getAllInteractions store 1000 0) e.1,
        likeCount (getAllInteractions store 1000 0) e.1) = e := Option.some.inj hfind
    have hev : e.2.1 = viewCount (getAllInteractions store 1000 0) e.1 :=
      (congrArg (fun p => p.2.1) he2).symm
    have hek : e.2.2 = likeCount (getAllInteractions store 1000 0) e.1 :=
      (congrArg (fun p => p.2.2) he2).symm
    rw [hid]
    refine ⟨?_, hres⟩
    rw [hscore, hev, hek]
  · exact absurd hfind (by simp)

/-- The stored per-term weight in tenths matches the per-term weight in
points. -/
theorem fieldScoreQ_eq (article : Article) (t : String) :
    fieldScoreQ article t = (fieldScore article t : ℚ) / 10 := by
  unfold fieldScore fieldScoreQ
  split <;> split <;> split <;> norm_num

/-- Summing per-term weights commutes with the tenths-to-points conversion. -/
theorem sum_fieldScoreQ (article : Article) (l : List String) :
    (l.map (fieldScoreQ article)).sum
      = ((l.map (fieldScore article)).sum : ℚ) / 10 := by
  induction l with
  | nil => simp
  | cons t ts ih =>
    simp only [List.map_cons, List.sum_cons, ih, fieldScoreQ_eq]
    push_cast
    ring

/-- An infix of a list is an infix of any extension on both sides. -/
theorem infix_of_middle {α : Type} {l m : List α} (x y : List α)
    (h : l <:+: m) : l <:+: x ++ m ++ y := by
  rcases h with ⟨s, u, hm⟩
  exact ⟨x ++ s, u ++ y, by rw [← hm]; simp [List.append_assoc]⟩

/-- A term contained in the lowercased title, summary or content is contained
in the joined lowercased article text. -/
theorem strIncludes_articleText_of_field (article : Article) (x : String)
    (h : (strIncludes (lowerStr article.title) x
      || summaryIncludes article x
      || strIncludes (lowerStr article.content) x) = true) :
    strIncludes (articleText article) x = true := by
  rw [Bool.or_eq_true, Bool.or_eq_true] at h
  simp only [strIncludes, decide_eq_true_eq] at *
  show x.data <:+: ((article.title ++ " " ++ article.content ++ " "
    ++ article.summary.getD "").data.map Char.toLower)
  simp only [String.data_append, List.map_append]
  rcases h with (h1 | h2) | h3
  · simpa [List.append_assoc] using
      infix_of_middle [] ((" ".data.map Char.toLower)
        ++ (article.content.data.map Char.toLower)
        ++ ((" ".data.map Char.toLower)
          ++ ((article.summary.getD "").data.map Char.toLower))) h1
  · unfold summaryIncludes at h2
    cases hs : article.summary with
    | none => rw [hs] at h2; exact absurd h2 (by simp)
    | some s =>
      rw [hs] at h2
      simp only [strIncludes, decide_eq_true_eq] at h2
      simpa [List.append_assoc] using
        infix_of_middle ((article.title.data.map Char.toLower)
          ++ (" ".data.map Char.toLower)
          ++ (article.content.data.map Char.toLower)
          ++ (" ".data.map Char.toLower)) [] h2
  · simpa [List.append_assoc] using
      infix_of_middle ((article.title.data.map Char.toLower)
        ++ (" ".data.map Char.toLower))
        ((" ".data.map Char.toLower)
          ++ ((article.summary.getD "").data.map Char.toLower)) h3

/-- A resolved user makes the engine return the built response. -/
theorem engine_ok {store : Store} {userId : Nat} {user : User} (limit : Nat)
    (hu : getUserById store userId = some user) :
    getRecommendationsForUser store userId limit
      = Except.ok (buildRecommendations store userId user limit) := by
  unfold getRecommendationsForUser
  rw [hu]

/-- An unresolved user makes the engine fail with the wrapped message. -/
theorem engine_error {store : Store} {userId : Nat} (limit : Nat)
    (hu : getUserById store userId = none) :
    getRecommendationsForUser store userId limit
      = Except.error "Failed to generate recommendations: User not found" := by
  unfold getRecommendationsForUser
  rw [hu]

/-- C1: Interest Matcher scoring. A term contained (case-insensitively) in the
title, summary or content is recorded as matched; every returned interest
recommendation carries the matched-term list, a nonempty match, and a score
equal to the sum over matched terms of the per-field weights (3 for title, 2
for summary, 1 for content, additive per field) plus a single flat bonus of
`0.5 ×` the number of matched terms (which, for a duplicate-free interest
list, is the number of distinct matched terms); a term's field weight never
exceeds 6; an article with zero matched terms yields no recommendation. -/
theorem claim_C1 (user : User) (articles : List Article) (limit : Nat)
    (article : Article) (t : String) :
    (t ∈ user.interests →
      (strIncludes (lowerStr article.title) (lowerStr t)
        || summaryIncludes article (lowerStr t)
        || strIncludes (lowerStr article.content) (lowerStr t)) = true →
      t ∈ matchedTerms user.interests article) ∧
    (∀ r ∈ getInterestBasedRecommendations user articles limit,
      r.matchedInterests = some (matchedTerms user.interests r.article) ∧
      matchedTerms user.interests r.article ≠ [] ∧
      r.scoreQ = ((matchedTerms user.interests r.article).map
          (fieldScoreQ r.article)).sum
        + ((matchedTerms user.interests r.article).length : ℚ) * (1 / 2)) ∧
    fieldScoreQ article t ≤ 6 ∧
    (user.interests.Nodup → (matchedTerms user.interests article).Nodup) ∧
    (matchedTerms user.interests article = [] →
      ∀ r ∈ getInterestBasedRecommendations user articles limit,
        r.article ≠ article) := by
  refine ⟨?_, ?_, ?_, ?_, ?_⟩
  · intro ht hfield
    unfold matchedTerms
    exact List.mem_filter.mpr
      ⟨ht, strIncludes_articleText_of_field article (lowerStr t) hfield⟩
  · intro r hr
    rcases mem_interest_recs hr with ⟨a, ha, hfa⟩
    obtain ⟨harticle, hm, hscore, hne⟩ := interestRecommendationFor_eq hfa
    subst harticle
    refine ⟨hm, hne, ?_⟩
    show (r.score : ℚ) / 10 = _
    rw [hscore, sum_fieldScoreQ]
    push_cast
    ring
  · unfold fieldScoreQ
    split <;> split <;> split <;> norm_num
  · intro hnd
    unfold matchedTerms
    exact hnd.filter _
  · intro hzero r hr hart
    rcases mem_interest_recs hr with ⟨a, ha, hfa⟩
    obtain ⟨harticle, -, -, hne⟩ := interestRecommendationFor_eq hfa
    have haa : a = article := harticle.symm.trans hart
    rw [haa] at hne
    exact hne hzero

/-- Witness for C1 at the concrete scenario user and article: the term "tech"
is contained in a field, hence matched, and the matched list of a
duplicate-free interest list is duplicate-free. -/
theorem claim_C1_witness :
    "tech" ∈ matchedTerms tsUser.interests tsArticle ∧
    (matchedTerms tsUser.interests tsArticle).Nodup :=
  ⟨(claim_C1 tsUser [tsArticle] 10 tsArticle "tech").1 (by decide) (by decide),
   (claim_C1 tsUser [tsArticle] 10 tsArticle "tech").2.2.2.1 (by decide)⟩

/-- C2 fails on the code: for the spec scenario (interests
`["tech","programming"]`, title "Advanced TypeScript Programming Techniques",
summary "A deep dive into tech concepts...", content containing neither term)
the produced recommendation scores 9.0, not 6.0 — "tech" is a substring of
"Techniques", so the title weight fires for both terms. -/
theorem claim_C2_counterexample :
    (getInterestBasedRecommendations tsUser [tsArticle] 10).map
        (fun r => (r.scoreQ, r.matchedInterests))
      = [((9 : ℚ), some ["tech", "programming"])] ∧ (9 : ℚ) ≠ 6 := by
  have h : getInterestBasedRecommendations tsUser [tsArticle] 10
      = [{ article := tsArticle, score := 90,
           reason := "Matches your interests: tech, programming",
           matchedInterests := some ["tech", "programming"] }] := by decide
  refine ⟨?_, by norm_num⟩
  rw [h]
  simp only [List.map_cons, List.map_nil, Recommendation.scoreQ]
  norm_num

/-- C2 amended: the scenario produces matched terms {"tech", "programming"}
and score exactly 9.0 = 3 (title "programming") + 3 (title "tech" via
"Techniques") + 2 (summary "tech") + 2 × 0.5 (two matched terms). -/
theorem claim_C2_amended :
    (getInterestBasedRecommendations tsUser [tsArticle] 10).map
        (fun r => (r.scoreQ, r.matchedInterests))
      = [((9 : ℚ), some ["tech", "programming"])] ∧
    strIncludes (lowerStr tsArticle.title) (lowerStr "tech") = true ∧
    summaryIncludes tsArticle (lowerStr "tech") = true ∧
    strIncludes (lowerStr tsArticle.content) (lowerStr "tech") = false ∧
    strIncludes (lowerStr tsArticle.title) (lowerStr "programming") = true ∧
    summaryIncludes tsArticle (lowerStr "programming") = false ∧
    strIncludes (lowerStr tsArticle.content) (lowerStr "programming") = false := by
  have h : getInterestBasedRecommendations tsUser [tsArticle] 10
      = [{ article := tsArticle, score := 90,
           reason := "Matches your interests: tech, programming",
           matchedInterests := some ["tech", "programming"] }] := by decide
  refine ⟨?_, by decide, by decide, by decide, by decide, by decide, by decide⟩
  rw [h]
  simp only [List.map_cons, List.map_nil, Recommendation.scoreQ]
  norm_num

set_option maxRecDepth 100000 in
set_option maxHeartbeats 4000000 in
/-- C3 fails on the code at `bugStore`: user 0 has a recorded `view`
interaction on article 0, yet the engine recommends article 0, because the
exclusion set is built from a page of at most 1000 interactions and user 0
has 1001, the view of article 0 being the oldest. -/
theorem claim_C3_bug :
    ({ userId := 0, articleId := 0, interactionType := InteractionType.view,
       createdAt := 0 } : Interaction) ∈ bugStore.interactions ∧
    (recsOf (getRecommendationsForUser bugStore 0 10)).map (fun r => r.article.id)
      = [0] := by
  decide

/-- C4: no article id appears twice in one ranked result list — for the
personalized engine whenever the stored articles have pairwise distinct ids
(the store invariant), and for the trending list unconditionally. -/
theorem claim_C4 :
    (∀ (store : Store) (userId limit : Nat),
      (store.articles.map (fun a => a.id)).Nodup →
      ((recsOf (getRecommendationsForUser store userId limit)).map
        (fun r => r.article.id)).Nodup) ∧
    (∀ (store : Store) (limit : Nat),
      ((getTrendingArticles store limit).map (fun r => r.article.id)).Nodup) := by
  refine ⟨?_, fun store limit => trending_ids_nodup store limit⟩
  intro store userId limit h
  cases hu : getUserById store userId with
  | none => rw [engine_error limit hu]; simp [recsOf]
  | some u =>
    rw [engine_ok limit hu]
    exact build_recs_ids_nodup store userId u limit h

/-- Witness for C4 at `store7`: the engine output and the trending list both
have duplicate-free article ids. -/
theorem claim_C4_witness :
    ((recsOf (getRecommendationsForUser store7 1 10)).map
      (fun r => r.article.id)).Nodup ∧
    ((getTrendingArticles store7 3).map (fun r => r.article.id)).Nodup :=
  ⟨claim_C4.1 store7 1 10 (by decide), claim_C4.2 store7 3⟩

/-- C5 fails on the code: a limit of 100 is rejected with a 400 validation
error, not processed as the nearest in-range value 50. -/
theorem claim_C5_counterexample :
    recommendationLimitCheck (some 100)
      = Except.error "Limit must be between 1 and 50" ∧
    recommendationLimitCheck (some 100) ≠ Except.ok 50 := by
  refine ⟨rfl, ?_⟩
  intro h
  rw [show recommendationLimitCheck (some 100)
    = Except.error "Limit must be between 1 and 50" from rfl] at h
  exact Except.noConfusion h

/-- C5 amended: the default is 10 (also when the query parses to the falsy 0
or is missing/unparsable); an in-range limit is passed through unchanged; any
other out-of-range limit is rejected with the 400 validation error — no
clamping occurs. -/
theorem claim_C5_amended :
    (∀ n : Int, 1 ≤ n → n ≤ 50 →
      recommendationLimitCheck (some n) = Except.ok n) ∧
    recommendationLimitCheck none = Except.ok 10 ∧
    recommendationLimitCheck (some 0) = Except.ok 10 ∧
    (∀ n : Int, ¬ n = 0 → (n < 1 ∨ 50 < n) →
      recommendationLimitCheck (some n)
        = Except.error "Limit must be between 1 and 50") := by
  refine ⟨?_, rfl, rfl, ?_⟩
  · intro n h1 h2
    simp only [recommendationLimitCheck]
    have hn0 : ¬ (n = 0) := by omega
    rw [if_neg hn0, if_neg (by omega : ¬ (n < 1 ∨ 50 < n))]
  · intro n hn0 hout
    simp only [recommendationLimitCheck]
    rw [if_neg hn0, if_pos hout]

/-- Witness for C5 at the concrete limits 7 (accepted unchanged) and 51
(rejected). -/
theorem claim_C5_witness :
    recommendationLimitCheck (some 7) = Except.ok 7 ∧
    recommendationLimitCheck (some 51)
      = Except.error "Limit must be between 1 and 50" :=
  ⟨claim_C5_amended.1 7 (by decide) (by decide),
   claim_C5_amended.2.2.2 51 (by decide) (by decide)⟩

/-- C6: every popularity-based recommendation comes from an article whose
`popularityScore = likes × 2 + views` is positive (zero-score articles are
discarded), carries score `popularityScore × 0.1`, and that score is strictly
less than `likes × 2 + views`. -/
theorem claim_C6 (store : Store) (articles : List Article) (limit : Nat)
    (r : Recommendation)
    (h : r ∈ getPopularityBasedRecommendations store articles limit) :
    0 < (getInteractionStats store r.article.id).likes * 2
      + (getInteractionStats store r.article.id).views ∧
    r.scoreQ = (((getInteractionStats store r.article.id).likes * 2
      + (getInteractionStats store r.article.id).views : Nat) : ℚ) * (1 / 10) ∧
    r.scoreQ < (((getInteractionStats store r.article.id).likes * 2
      + (getInteractionStats store r.article.id).views : Nat) : ℚ) := by
  obtain ⟨-, hpos, hscore, -⟩ := mem_pop_recs h
  refine ⟨hpos, ?_, ?_⟩
  · show (r.score : ℚ) / 10 = _
    rw [hscore]
    push_cast
    ring
  · have hq : (0 : ℚ) < (((getInteractionStats store r.article.id).likes * 2
        + (getInteractionStats store r.article.id).views : Nat) : ℚ) := by
      exact_mod_cast hpos
    show (r.score : ℚ) / 10 < _
    rw [hscore]
    push_cast at hq ⊢
    linarith

/-- Witness for C6 at `store7` with the single candidate article 5 (one view,
no likes). -/
theorem claim_C6_witness :
    0 < (getInteractionStats store7 popWitnessRec.article.id).likes * 2
      + (getInteractionStats store7 popWitnessRec.article.id).views ∧
    popWitnessRec.scoreQ
      = (((getInteractionStats store7 popWitnessRec.article.id).likes * 2
        + (getInteractionStats store7 popWitnessRec.article.id).views : Nat) : ℚ)
        * (1 / 10) ∧
    popWitnessRec.scoreQ
      < (((getInteractionStats store7 popWitnessRec.article.id).likes * 2
        + (getInteractionStats store7 popWitnessRec.article.id).views : Nat) : ℚ) :=
  claim_C6 store7 [mkPlainArticle 5 "plain five"] 3 popWitnessRec (by decide)

/-- C7: the popularity pass is asked for `limit` minus the number of interest
results actually returned — so the popularity contribution never exceeds that
difference, and in the concrete shortfall scenario (limit 10, interest target
6, only 4 interest matches, ten engaged candidates) it delivers 6 results,
not `10 × 0.4 = 4`. -/
theorem claim_C7 :
    (∀ (store : Store) (userId limit : Nat),
      popCountOf (getRecommendationsForUser store userId limit)
        ≤ limit - interestCountOf (getRecommendationsForUser store userId limit)) ∧
    interestCountOf (getRecommendationsForUser store7 1 10) = 4 ∧
    popCountOf (getRecommendationsForUser store7 1 10) = 6 := by
  refine ⟨?_, by decide, by decide⟩
  intro store userId limit
  cases hu : getUserById store userId with
  | none => rw [engine_error limit hu]; simp [popCountOf]
  | some u =>
    rw [engine_ok limit hu]
    show (buildRecommendations store userId u limit).popularityBasedCount
      ≤ limit - (buildRecommendations store userId u limit).interestBasedCount
    rw [build_popularityBasedCount, build_interestBasedCount, List.length_append,
      Nat.add_sub_cancel_left]
    simp only [popularityRecommendationsOf]
    split
    · exact le_trans (pop_recs_length_le _ _ _) (le_of_eq (Int.toNat_sub _ _))
    · simp

set_option maxRecDepth 100000 in
set_option maxHeartbeats 2000000 in
/-- C8 fails on the code at `trendStore`: the store holds 1001 interactions;
the oldest one (a view of article 0) is outside the 1000-interaction page the
code fetches, so article 0 is missing from the code's trending list although
the spec-modelled all-interaction fold ranks it. -/
theorem claim_C8_counterexample :
    ({ userId := 0, articleId := 0, interactionType := InteractionType.view,
       createdAt := 0 } : Interaction) ∈ trendStore.interactions ∧
    (getTrendingArticles trendStore 5).map (fun r => r.article.id) = [1] ∧
    (trendingAggregatorSpec trendStore 5).map (fun r => r.article.id) = [1, 0] := by
  decide

/-- C8 amended: `getTrendingArticles` folds the page of (at most 1000 most
recent) interactions fetched globally — not per user and not time-windowed —
into per-article view/like counters, scores each resolvable article
`likes × 3 + views`, sorts descending and truncates to the limit; the spec
scenario (3 likes, 5 views) scores 14 with no user excluded. -/
theorem claim_C8_amended :
    (∀ (store : Store) (limit : Nat),
      (getTrendingArticles store limit).length ≤ limit) ∧
    (∀ (store : Store) (limit : Nat),
      (getTrendingArticles store limit).Pairwise (fun a b => b.score ≤ a.score)) ∧
    (∀ (store : Store) (limit : Nat) (r : Recommendation),
      r ∈ getTrendingArticles store limit →
      r.scoreQ = ((likeCount (getAllInteractions store 1000 0) r.article.id * 3
        + viewCount (getAllInteractions store 1000 0) r.article.id : Nat) : ℚ) ∧
      getArticleById store r.article.id = some r.article) ∧
    (getTrendingArticles trendScenarioStore 5).map (fun r => (r.article.id, r.scoreQ))
      = [(7, (14 : ℚ))] := by
  refine ⟨?_, ?_, ?_, ?_⟩
  · intro store limit
    unfold getTrendingArticles
    rw [List.length_take]
    exact inf_le_left
  · intro store limit
    unfold getTrendingArticles
    exact List.Pairwise.sublist (List.take_sublist _ _) (sortDesc_pairwise _ _)
  · intro store limit r hr
    obtain ⟨hscore, hres⟩ := mem_trending hr
    refine ⟨?_, hres⟩
    show (r.score : ℚ) / 10 = _
    rw [hscore]
    push_cast
    ring
  · have h : getTrendingArticles trendScenarioStore 5 = [trendWitnessRec] := by decide
    rw [h]
    simp only [List.map_cons, List.map_nil, Recommendation.scoreQ, trendWitnessRec]
    norm_num

/-- Witness for C8 at `trendScenarioStore`: the trending recommendation for
article 7 scores `3 × 3 + 5 = 14` points and resolves its article. -/
theorem claim_C8_witness :
    trendWitnessRec.scoreQ
      = ((likeCount (getAllInteractions trendScenarioStore 1000 0)
          trendWitnessRec.article.id * 3
        + viewCount (getAllInteractions trendScenarioStore 1000 0)
          trendWitnessRec.article.id : Nat) : ℚ) ∧
    getArticleById trendScenarioStore trendWitnessRec.article.id
      = some trendWitnessRec.article :=
  claim_C8_amended.2.2.1 trendScenarioStore 5 trendWitnessRec (by decide)

/-- C9: the engine fails with the user-not-found error exactly when the user
id does not resolve, and succeeds (producing a full response, never a partial
one — the error branch carries no data) exactly when it does. -/
theorem claim_C9 (store : Store) (userId : Nat) (limit : Nat) :
    (getRecommendationsForUser store userId limit).toOption.isSome
      = (getUserById store userId).isSome ∧
    (getRecommendationsForUser store userId limit
        = Except.error "Failed to generate recommendations: User not found"
      ↔ getUserById store userId = none) := by
  cases hu : getUserById store userId with
  | none =>
    rw [engine_error limit hu]
    simp [Except.toOption]
  | some u =>
    rw [engine_ok limit hu]
    refine ⟨by simp [Except.toOption], ?_, ?_⟩
    · intro h
      exact absurd h (by simp)
    · intro h
      exact absurd h (by simp)

/-- C10: the matched-term list the loop records is exactly the list of terms
contained in the single lowercased join of title, content and summary; for
`spanArticle` the term "beta gamma" spans the title/content boundary, is
contained in none of the three fields, and still yields a recommendation with
score exactly 0.5 (the flat bonus alone). -/
theorem claim_C10 :
    (∀ (user : User) (article : Article),
      (user.interests.foldl (interestStep article) ([], 0)).1
        = matchedTerms user.interests article) ∧
    (getInterestBasedRecommendations spanUser [spanArticle] 5).map
        (fun r => (r.scoreQ, r.matchedInterests))
      = [((1 / 2 : ℚ), some ["beta gamma"])] ∧
    strIncludes (lowerStr spanArticle.title) (lowerStr "beta gamma") = false ∧
    spanArticle.summary = none ∧
    strIncludes (lowerStr spanArticle.content) (lowerStr "beta gamma") = false := by
  refine ⟨?_, ?_, by decide, rfl, by decide⟩
  · intro user article
    rw [interest_foldl article user.interests ([], 0)]
    simp
  · have h : getInterestBasedRecommendations spanUser [spanArticle] 5
      = [{ article := spanArticle, score := 5,
           reason := "Matches your interests: beta gamma",
           matchedInterests := some ["beta gamma"] }] := by decide
    rw [h]
    simp only [List.map_cons, List.map_nil, Recommendation.scoreQ]
    norm_num
